import Mathlib

/-!
Verification development for the process-control core of the Delve debugger
(undoio/delve fork).  The definitions below are shallow embeddings, translated
directly from the Go source:

* `proc/memory.go` — the `memory`/`memCache` MemoryReadWriter implementations
  (`Swap`, `Read`, `Write`, `newCachedMem`);
* `pkg/memory` (`Cache`) — the refactored cache whose `Write` also patches the
  cached window;
* `proctl/breakpoints.go` (+ `breakpoints_linux_amd64.go`) — breakpoint tables,
  hardware debug-register allocation and software 0xCC patching;
* `pkg/proc/gdbserial/undo.go` — the record/replay session state: checkpoint
  creation/deletion, note validation, session save/load and volatile mode.

Machine integers (`uint64`, `int`) are modelled as `Nat`/`Int`; target memory is
a total function `Nat → Nat` in contexts where the claims assume I/O succeeds,
and `Nat → Option Nat` where read failure matters.
-/

/-! ### Target memory and `memory.Swap` (proc/memory.go) -/

/-- `read(id, addr, size)`: the `size` bytes stored at `addr`.  Models the
underlying ptrace read on a memory where reads succeed. -/
def memRead (m : Nat → Nat) (addr size : Nat) : List Nat :=
  (List.range size).map fun i => m (addr + i)

/-- `write(id, addr, data)`: overwrite the `data.length` bytes at `addr`.
Models the underlying ptrace write on a memory where writes succeed. -/
def memWrite (m : Nat → Nat) (addr : Nat) (data : List Nat) : Nat → Nat :=
  fun a => if addr ≤ a ∧ a < addr + data.length then data.getD (a - addr) 0 else m a

/-- `memory.Swap` from proc/memory.go: read the original `data.length` bytes at
`addr`, then write `data` there; returns the original bytes and the resulting
memory. -/
def memSwap (m : Nat → Nat) (addr : Nat) (data : List Nat) : List Nat × (Nat → Nat) :=
  (memRead m addr data.length, memWrite m addr data)

/-! ### The one-region read-through cache

`MemRW` models a value of the Go interface `MemoryReadWriter`: either a plain
target memory (`base`, a partial byte map — `none` marks an unreadable byte) or
a `memCache`/`Cache` wrapping another `MemRW`. -/

inductive MemRW where
  | base (m : Nat → Option Nat)
  | cache (cacheAddr : Nat) (buf : List Nat) (inner : MemRW)
deriving Inhabited

/-- `memCache.contains` / `Cache.contains`:
`addr >= cacheAddr && addr+size <= cacheAddr+len(buf)`. -/
def cacheContains (cacheAddr : Nat) (buf : List Nat) (addr size : Nat) : Bool :=
  decide (cacheAddr ≤ addr) && decide (addr + size ≤ cacheAddr + buf.length)

/-- `Read`: a base memory reads each byte (failing if any byte is unreadable);
a cache serves fully-contained reads from the window (`make` + `copy` of
`cache[addr-cacheAddr:]`, i.e. a fresh copy of the window segment) and
otherwise falls through to the wrapped `MemRW`. -/
def MemRW.read : MemRW → Nat → Nat → Option (List Nat)
  | .base m, addr, size => (List.range size).mapM fun i => m (addr + i)
  | .cache cacheAddr buf inner, addr, size =>
      if cacheContains cacheAddr buf addr size then
        some ((buf.drop (addr - cacheAddr)).take size)
      else
        inner.read addr size

/-- Write to a base memory: overwrite the bytes (modelled as succeeding). -/
def baseWrite (m : Nat → Option Nat) (addr : Nat) (data : List Nat) : Nat → Option Nat :=
  fun a => if addr ≤ a ∧ a < addr + data.length then some (data.getD (a - addr) 0) else m a

/-- `memCache.Write` from proc/memory.go: `return m.mem.Write(addr, data)` —
the write always falls through to the wrapped `MemRW` and the cached window is
left untouched. -/
def MemRW.memCacheWrite : MemRW → Nat → List Nat → MemRW
  | .base m, addr, data => .base (baseWrite m addr data)
  | .cache cacheAddr buf inner, addr, data =>
      .cache cacheAddr buf (inner.memCacheWrite addr data)

/-- Overwrite `data.length` bytes of `buf` starting at offset `off`
(`copy(buf[off:], data)` when `off + data.length ≤ buf.length`). -/
def bufOverwrite (buf : List Nat) (off : Nat) (data : List Nat) : List Nat :=
  buf.take off ++ data ++ buf.drop (off + data.length)

/-- `Cache.Write` from the pkg/memory refactoring: if the written range is
fully contained in the window, `copy` the data into the window; in every case
fall through to the wrapped `MemRW`. -/
def MemRW.cacheWrite : MemRW → Nat → List Nat → MemRW
  | .base m, addr, data => .base (baseWrite m addr data)
  | .cache cacheAddr buf inner, addr, data =>
      let buf' := if cacheContains cacheAddr buf addr data.length then
                    bufOverwrite buf (addr - cacheAddr) data
                  else buf
      .cache cacheAddr buf' (inner.cacheWrite addr data)

/-- `const cacheEnabled = true` in proc/memory.go. -/
def cacheEnabled : Bool := true

/-- The `MemRW` through which `newCachedMem`/`NewCache` issues its pre-read:
for an existing cache that is `cacheMem.mem`; for a plain memory it is the
memory itself. -/
def MemRW.underlying : MemRW → MemRW
  | .base m => .base m
  | .cache _ _ inner => inner

/-- `newCachedMem` from proc/memory.go (identical in structure to `NewCache` of
the pkg/memory refactoring, which lacks only the `cacheEnabled` guard):
construct a one-region cache over `mem`, best effort. -/
def newCachedMem (mem : MemRW) (addr : Nat) (size : Int) : MemRW :=
  if cacheEnabled = false then mem
  else if size ≤ 0 then mem
  else
    match mem with
    | .cache cacheAddr buf inner =>
        if cacheContains cacheAddr buf addr size.toNat then mem
        else
          match inner.read addr size.toNat with
          | none => mem
          | some data => .cache addr data mem
    | .base m =>
        match (MemRW.base m).read addr size.toNat with
        | none => mem
        | some data => .cache addr data mem

/-- Nesting depth of a `MemRW` (number of cache layers). -/
def MemRW.depth : MemRW → Nat
  | .base _ => 0
  | .cache _ _ inner => inner.depth + 1

/-! ### Slice-allocation model of `memCache.Read` (proc/memory.go)

To express that `Read` hands back a *freshly allocated copy* of the window
bytes (`d := make([]byte, size); copy(d, m.cache[...])`), byte slices are
modelled as indices into an explicit heap of byte arrays.  `cacheArr` is the
index of the cache's window buffer. -/

structure CacheState where
  heap : List (List Nat)
  cacheArr : Nat
  cacheAddr : Nat
  umem : Nat → Nat

/-- The cache's window buffer (`m.cache`). -/
def CacheState.buf (s : CacheState) : List Nat :=
  s.heap.getD s.cacheArr []

/-- `memCache.Read`, heap-explicit: a contained read allocates a fresh array
(`make`), copies the window segment into it and returns its index; a
non-contained read falls through to the underlying memory, whose result is
likewise a fresh array.  Returns the new state and the returned slice. -/
def cacheReadAlloc (s : CacheState) (addr size : Nat) : CacheState × Nat :=
  if cacheContains s.cacheAddr s.buf addr size then
    let d := (s.buf.drop (addr - s.cacheAddr)).take size
    ({ s with heap := s.heap ++ [d] }, s.heap.length)
  else
    let d := memRead s.umem addr size
    ({ s with heap := s.heap ++ [d] }, s.heap.length)

/-- Mutate the byte array behind slice `r` (the caller scribbling over a slice
it was handed). -/
def heapStore (s : CacheState) (r : Nat) (data : List Nat) : CacheState :=
  { s with heap := s.heap.set r data }

/-- The byte contents a read returns (contents of the returned slice). -/
def cacheReadBytes (s : CacheState) (addr size : Nat) : List Nat :=
  ((cacheReadAlloc s addr size).1).heap.getD (cacheReadAlloc s addr size).2 []

/-! ### Breakpoint subsystem (proctl/breakpoints.go) -/

def DR_RW_EXECUTE : Nat := 0x0
def DR_RW_WRITE : Nat := 0x1
def DR_RW_READ : Nat := 0x3
def DR_LEN_1 : Nat := 0x0 <<< 2
def DR_ENABLE_SIZE : Nat := 2
def DR_CONTROL_SIZE : Nat := 4
def DR_CONTROL_SHIFT : Nat := 16

/-- 64-bit bitwise complement (`^mask` on a `uintptr`). -/
def compl64 (m : Nat) : Nat := (2 ^ 64 - 1) ^^^ m

/-- The x86-64 debug registers of one thread: the four address slots DR0–DR3
and the control register DR7. -/
structure DebugRegs where
  dr0 : Nat
  dr1 : Nat
  dr2 : Nat
  dr3 : Nat
  dr7 : Nat
deriving DecidableEq

/-- `setDebugRegister(tid, reg, addr)`: poke `addr` into DR`reg`
(`reg` is validated to lie in 0..3 by the caller). -/
def setDebugRegister (r : DebugRegs) (reg : Nat) (addr : Nat) : DebugRegs :=
  if reg = 0 then { r with dr0 := addr }
  else if reg = 1 then { r with dr1 := addr }
  else if reg = 2 then { r with dr2 := addr }
  else if reg = 3 then { r with dr3 := addr }
  else r

/-- `setHardwareBreakpoint(reg, tid, addr)` from proctl/breakpoints.go, with
`getControlRegister`/`setControlRegister` reading and writing DR7 as the
function intends (the Darwin helpers do this; the Linux helper's slip is
modelled separately below). -/
def setHardwareBreakpoint (reg : Nat) (r : DebugRegs) (addr : Nat) :
    Except String DebugRegs :=
  if reg > 3 then .error "invalid debug register value"
  else
    let drxmask := (((1 <<< DR_CONTROL_SIZE) - 1) <<< (reg * DR_CONTROL_SIZE)) |||
                   (((1 <<< DR_ENABLE_SIZE) - 1) <<< (reg * DR_ENABLE_SIZE))
    let drxenable := 1 <<< (reg * DR_ENABLE_SIZE)
    let drxctl := (DR_RW_EXECUTE ||| DR_LEN_1) <<< (reg * DR_CONTROL_SIZE)
    let dr7 := r.dr7
    if addr = 0 then
      .ok { r with dr7 := dr7 &&& compl64 drxmask }
    else if dr7 &&& (0x3 <<< (reg * DR_ENABLE_SIZE)) ≠ 0 then
      .error "already enabled"
    else
      let r := setDebugRegister r reg addr
      let dr7 := dr7 &&& compl64 drxmask
      let dr7 := dr7 ||| (drxctl <<< DR_CONTROL_SHIFT) ||| drxenable
      .ok { r with dr7 := dr7 }

/-- `setHardwareBreakpoint` as built on Linux/amd64, where `setControlRegister`
pokes the breakpoint address where the computed `dr7` value is intended
(`PtracePokeUser(tid, dr7off, uintptr(addr))` in
proctl/breakpoints_linux_amd64.go — `addr` is not even a parameter of that
function). -/
def setHardwareBreakpointLinux (reg : Nat) (r : DebugRegs) (addr : Nat) :
    Except String DebugRegs :=
  if reg > 3 then .error "invalid debug register value"
  else
    let drxmask := (((1 <<< DR_CONTROL_SIZE) - 1) <<< (reg * DR_CONTROL_SIZE)) |||
                   (((1 <<< DR_ENABLE_SIZE) - 1) <<< (reg * DR_ENABLE_SIZE))
    let drxenable := 1 <<< (reg * DR_ENABLE_SIZE)
    let drxctl := (DR_RW_EXECUTE ||| DR_LEN_1) <<< (reg * DR_CONTROL_SIZE)
    let dr7 := r.dr7
    if addr = 0 then
      .ok { r with dr7 := addr }
    else if dr7 &&& (0x3 <<< (reg * DR_ENABLE_SIZE)) ≠ 0 then
      .error "already enabled"
    else
      let r := setDebugRegister r reg addr
      let _ := dr7 &&& compl64 drxmask
      let _ := drxctl
      let _ := drxenable
      .ok { r with dr7 := addr }

/-- Modelled from the spec: the DR7 update the specification prescribes for
enabling slot `reg` — clear the slot's 4-bit control field at bits
`16+4·reg ..` and its 2-bit enable field at bits `2·reg ..`, then OR in
`(execute|len1) << (16 + 4·reg)` and `1 << (2·reg)`.  Written from the spec's
words for comparison with the source's computation. -/
def specDr7Update (reg : Nat) (dr7 : Nat) : Nat :=
  let cleared := dr7 &&& compl64 ((((1 <<< 4) - 1) <<< (16 + 4 * reg)) |||
                                  (((1 <<< 2) - 1) <<< (2 * reg)))
  cleared ||| ((DR_RW_EXECUTE ||| DR_LEN_1) <<< (16 + 4 * reg)) ||| (1 <<< (2 * reg))

/-- The result of `GoSymTable.PCToLine(addr)` when the address resolves to a
known function: file, line and function name.  The symbol oracle itself is
modelled as `Nat → Option SymInfo`, with `none` standing for `fn == nil`. -/
structure SymInfo where
  file : String
  line : Nat
  fnName : String
deriving DecidableEq

/-- `proctl.BreakPoint`. -/
structure BreakPoint where
  functionName : String
  file : String
  line : Nat
  addr : Nat
  originalData : List Nat
  id : Nat
  temp : Bool
deriving DecidableEq

/-- The error results of `DebuggedProcess.setBreakpoint`:
`InvalidAddressError`, `BreakPointExistsError`, and the wrapped
"could not set hardware breakpoint" error. -/
inductive BpError where
  | invalidAddress (addr : Nat)
  | breakPointExists (file : String) (line : Nat) (addr : Nat)
  | hwError (msg : String)
deriving DecidableEq

/-- The parts of `proctl.DebuggedProcess` that the breakpoint operations touch:
the four-element hardware table `HWBreakPoints`, the software table
`BreakPoints` (a map from address), the id counter, the thread's debug
registers and the thread's memory (reads and writes modelled as succeeding). -/
structure DebuggedProcess where
  hw0 : Option BreakPoint
  hw1 : Option BreakPoint
  hw2 : Option BreakPoint
  hw3 : Option BreakPoint
  breakPoints : Nat → Option BreakPoint
  breakpointIDCounter : Nat
  regs : DebugRegs
  mem : Nat → Nat

/-- `HWBreakPoints[i]`. -/
def DebuggedProcess.hwGet (dbp : DebuggedProcess) (i : Nat) : Option BreakPoint :=
  if i = 0 then dbp.hw0
  else if i = 1 then dbp.hw1
  else if i = 2 then dbp.hw2
  else if i = 3 then dbp.hw3
  else none

/-- `HWBreakPoints[i] = some bp`. -/
def DebuggedProcess.hwSet (dbp : DebuggedProcess) (i : Nat) (bp : BreakPoint) :
    DebuggedProcess :=
  if i = 0 then { dbp with hw0 := some bp }
  else if i = 1 then { dbp with hw1 := some bp }
  else if i = 2 then { dbp with hw2 := some bp }
  else if i = 3 then { dbp with hw3 := some bp }
  else dbp

/-- One step of the `for i, v := range dbp.HWBreakPoints` scan in
`BreakpointExists`. -/
def opAddrEq (o : Option BreakPoint) (addr : Nat) : Bool :=
  match o with
  | none => false
  | some bp => decide (bp.addr = addr)

/-- `DebuggedProcess.BreakpointExists(addr)`: scan the hardware table, then
probe the software map. -/
def DebuggedProcess.BreakpointExists (dbp : DebuggedProcess) (addr : Nat) : Bool :=
  opAddrEq dbp.hw0 addr || opAddrEq dbp.hw1 addr || opAddrEq dbp.hw2 addr ||
    opAddrEq dbp.hw3 addr || (dbp.breakPoints addr).isSome

/-- The index of the first `nil` entry of `HWBreakPoints`, as found by the
`for i, v := range dbp.HWBreakPoints` loop in `setBreakpoint`. -/
def DebuggedProcess.firstFreeHWSlot (dbp : DebuggedProcess) : Option Nat :=
  if dbp.hw0.isNone then some 0
  else if dbp.hw1.isNone then some 1
  else if dbp.hw2.isNone then some 2
  else if dbp.hw3.isNone then some 3
  else none

/-- `DebuggedProcess.setBreakpoint(tid, addr)`: resolve the address through the
symbol oracle, reject duplicates, try the four hardware slots in order and
otherwise fall back to a software breakpoint — save the one original byte at
`addr`, then write `0xCC` (INT 3).  The Go method mutates `dbp` in place and
all its error returns precede any mutation, so the embedding returns the
(possibly updated) state alongside the result. -/
def setBreakpoint (sym : Nat → Option SymInfo) (dbp : DebuggedProcess) (addr : Nat) :
    Except BpError BreakPoint × DebuggedProcess :=
  match sym addr with
  | none => (.error (.invalidAddress addr), dbp)
  | some info =>
      if dbp.BreakpointExists addr then
        (.error (.breakPointExists info.file info.line addr), dbp)
      else
        match dbp.firstFreeHWSlot with
        | some reg =>
            match setHardwareBreakpoint reg dbp.regs addr with
            | .error e => (.error (.hwError e), dbp)
            | .ok regs' =>
                let counter := dbp.breakpointIDCounter + 1
                let bp : BreakPoint :=
                  ⟨info.fnName, info.file, info.line, addr, [], counter, false⟩
                (.ok bp,
                 ({ dbp with regs := regs', breakpointIDCounter := counter }).hwSet reg bp)
        | none =>
            let originalData := [dbp.mem addr]
            let mem' := memWrite dbp.mem addr [0xCC]
            let counter := dbp.breakpointIDCounter + 1
            let bp : BreakPoint :=
              ⟨info.fnName, info.file, info.line, addr, originalData, counter, false⟩
            (.ok bp,
             { dbp with mem := mem', breakpointIDCounter := counter,
                        breakPoints := fun a => if a = addr then some bp else dbp.breakPoints a })

/-- A fresh `DebuggedProcess`: no breakpoints installed, clear debug registers. -/
def freshProcess (mem : Nat → Nat) : DebuggedProcess :=
  ⟨none, none, none, none, fun _ => none, 0, ⟨0, 0, 0, 0, 0⟩, mem⟩

/-- The breakpoint tables only hold addresses that the symbol oracle resolves —
`setBreakpoint` installs a breakpoint only after `PCToLine` succeeds, so every
reachable state satisfies this. -/
def WfTables (sym : Nat → Option SymInfo) (dbp : DebuggedProcess) : Prop :=
  (∀ i bp, dbp.hwGet i = some bp → (sym bp.addr).isSome) ∧
  (∀ a, (dbp.breakPoints a).isSome → (sym a).isSome)

/-! ### Record/replay session (pkg/proc/gdbserial/undo.go)

Times are modelled in their parsed form: the serial protocol passes a time as
`"<hex bbcount>,<hex pc>"`, which `undoSession.save` parses with
`Sscanf("%x,%x")` and `undoSession.load` re-renders with `Sprintf("%x,%x")`;
the pair `(bbcount, pc)` round-trips through that formatting exactly. -/

/-- `bookmarkTime`: one serialised bookmark time (`bbcount`, `pc`), both
`uint64`.  Its Go zero value `bookmarkTime{}` is `⟨0, 0⟩`. -/
structure bookmarkTime where
  Bbcount : Nat
  Pc : Nat
deriving DecidableEq, Repr

/-- `proc.Checkpoint` as used by the undo session: id, time, user note. -/
structure Checkpoint where
  ID : Nat
  When : bookmarkTime
  Where : String
deriving DecidableEq, Repr

/-- The outcome of an undo-session operation: a value, a returned `error`, or
a Go `panic`. -/
inductive UndoResult (α : Type) where
  | ok (val : α)
  | err (msg : String)
  | panicked (msg : String)
deriving DecidableEq

/-- `undoSession`: the next checkpoint id, the checkpoint map (modelled as an
association list keyed by id) and the volatile flag.  The gdb-serial
connection commands are modelled as succeeding. -/
structure UndoSession where
  checkpointNextId : Nat
  checkpoints : List (Nat × Checkpoint)
  volatile : Bool
deriving DecidableEq

/-- `newUndoSession()`. -/
def newUndoSession : UndoSession :=
  ⟨1, [], false⟩

/-- The reserved first words of `validateCheckpointNote`. -/
def reservedNoteWords : List String :=
  ["annotation", "bookmark", "end", "event", "inferior", "pc",
   "redo", "start", "time", "undo", "wallclock"]

/-- `validateCheckpointNote(where)`: panic on an empty note; reject a leading
space, digit, `,`, `-` or `$` (a one-character `strconv.Atoi` succeeds exactly
on a digit); reject a reserved first word (`strings.Split(where, " ")[0]`, the
prefix before the first space).  String inspection is modelled on the
character list. -/
def validateCheckpointNote (note : String) : UndoResult Unit :=
  match note.data with
  | [] => .panicked "checkpoint note expectedly empty."
  | firstChar :: _ =>
      if firstChar = ' ' then .err "checkpoint note must not start with a space."
      else if firstChar.isDigit then
        .err "checkpoint note must not start with a digit."
      else if firstChar = ',' ∨ firstChar = '-' ∨ firstChar = '$' then
        .err "checkpoint note must not start with that character"
      else
        let firstWord := String.mk (note.data.takeWhile fun c => c ≠ ' ')
        if reservedNoteWords.contains firstWord then
          .err "checkpoint note must not start with a reserved word"
        else .ok ()

/-- Insert-or-overwrite into the checkpoint map. -/
def cpMapSet (m : List (Nat × Checkpoint)) (k : Nat) (v : Checkpoint) :
    List (Nat × Checkpoint) :=
  if m.any (fun p => p.1 == k) then
    m.map fun p => if p.1 == k then (k, v) else p
  else m ++ [(k, v)]

/-- `undoSession.createCheckpoint(conn, where)`: validate the note, allocate
`cpid = checkpointNextId++`, fetch the current time (`vUDB;get_time`, here the
parameter `t`), store the checkpoint and persist the session.  Note that the
method never consults the `volatile` flag. -/
def createCheckpoint (uc : UndoSession) (note : String) (t : bookmarkTime) :
    UndoResult (Nat × UndoSession) :=
  match validateCheckpointNote note with
  | .panicked m => .panicked m
  | .err m => .err m
  | .ok _ =>
      let cpid := uc.checkpointNextId
      .ok (cpid,
           { uc with checkpointNextId := cpid + 1,
                     checkpoints := cpMapSet uc.checkpoints cpid ⟨cpid, t, note⟩ })

/-- `undoSession.deleteCheckpoint(conn, id)`: drop the id from the map (the
next-id counter is untouched). -/
def deleteCheckpoint (uc : UndoSession) (id : Nat) : UndoSession :=
  { uc with checkpoints := uc.checkpoints.filter fun p => p.1 != id }

/-- `undoSession.activateVolatile(conn)`: panic if already volatile, otherwise
send `set_debuggee_volatile 1`, set the flag and hand back the deactivation
callback, which clears the flag (and sends `set_debuggee_volatile 0`). -/
def activateVolatile (uc : UndoSession) :
    UndoResult (UndoSession × (UndoSession → UndoSession)) :=
  if uc.volatile then .panicked "tried to activate volatile mode when already active."
  else .ok ({ uc with volatile := true }, fun u => { u with volatile := false })

/-- `undoSession.restartPre(conn)`: panic if in volatile mode, otherwise clear
the interrupt and proceed. -/
def restartPre (uc : UndoSession) : UndoResult Unit :=
  if uc.volatile then .panicked "attempted to restart in volatile mode."
  else .ok ()

/-- Go map read with the zero value as default:
`s.Bookmarks[name]` yields `bookmarkTime{}` when `name` is absent. -/
def bookmarksGet (m : List (String × bookmarkTime)) (k : String) : bookmarkTime :=
  match m.find? (fun p => p.1 == k) with
  | some p => p.2
  | none => ⟨0, 0⟩

/-- Go map assignment `s.Bookmarks[name] = time`. -/
def bookmarksSet (m : List (String × bookmarkTime)) (k : String) (v : bookmarkTime) :
    List (String × bookmarkTime) :=
  if m.any (fun p => p.1 == k) then
    m.map fun p => if p.1 == k then (k, v) else p
  else m ++ [(k, v)]

/-- The suffixing loop of `undoSession.save`:
`name := base; for i := 0; s.Bookmarks[name] != (bookmarkTime{}); i++
{ name = fmt.Sprintf("%s-%d", base, i) }`.  The fuel bounds the iteration
count; `m.length + 1` attempts always reach a name the loop accepts, since the
tried names are pairwise distinct and `m` holds `m.length` keys. -/
def freshNameGo (m : List (String × bookmarkTime)) (base : String) :
    Nat → String → Nat → String
  | 0, name, _ => name
  | fuel + 1, name, i =>
      if bookmarksGet m name = ⟨0, 0⟩ then name
      else freshNameGo m base fuel (base ++ "-" ++ toString i) (i + 1)

/-- The name under which `undoSession.save` emits a checkpoint note into the
bookmark map `m`. -/
def freshName (m : List (String × bookmarkTime)) (base : String) : String :=
  freshNameGo m base (m.length + 1) base 0

/-- The bookmark-map construction of `undoSession.save`: process the
checkpoints in the order produced by `sort.Slice` (descending note length;
ties in an order the Go runtime does not fix — the caller supplies the order),
give each a name that the zero-value presence test accepts, and assign it into
the map. -/
def saveBookmarks (cps : List Checkpoint) : List (String × bookmarkTime) :=
  cps.foldl (fun m cp => bookmarksSet m (freshName m cp.Where) cp.When) []

/-- `undoSession.load`: reset the session, then translate each loaded bookmark
into a checkpoint with a freshly allocated id (in map-iteration order; the
order is the list order supplied). -/
def loadCheckpoints (bm : List (String × bookmarkTime)) : UndoSession :=
  bm.foldl
    (fun uc p =>
      { uc with
        checkpointNextId := uc.checkpointNextId + 1,
        checkpoints :=
          uc.checkpoints ++ [(uc.checkpointNextId, ⟨uc.checkpointNextId, p.2, p.1⟩)] })
    newUndoSession

/-- The note/time pairs held by a session, for comparing a session with the
one reloaded from disk. -/
def sessionNotes (uc : UndoSession) : List (String × bookmarkTime) :=
  uc.checkpoints.map fun p => (p.2.Where, p.2.When)

/-- A checkpoint-map trace: the operations of a replay session that touch the
checkpoint table. -/
inductive SessionOp where
  | create (note : String) (t : bookmarkTime)
  | delete (id : Nat)

/-- Run a trace of checkpoint operations, collecting the ids handed out by the
successful creations. -/
def runOps (uc : UndoSession) : List SessionOp → UndoSession × List Nat
  | [] => (uc, [])
  | .create note t :: rest =>
      match createCheckpoint uc note t with
      | .ok (cpid, uc') =>
          let (ucf, ids) := runOps uc' rest
          (ucf, cpid :: ids)
      | _ => runOps uc rest
  | .delete id :: rest => runOps (deleteCheckpoint uc id) rest

/-! ### Theorems -/

theorem length_memRead (m : Nat → Nat) (a n : Nat) : (memRead m a n).length = n := by
  simp [memRead]

theorem getD_range_map (l : List Nat) :
    (List.range l.length).map (fun i => l.getD i 0) = l := by
  apply List.ext_getElem
  · simp
  · intro i h1 h2
    simp [List.getD_eq_getElem?_getD, List.getElem?_eq_getElem h2]

theorem memRead_getD (m : Nat → Nat) (a n i : Nat) (h : i < n) :
    (memRead m a n).getD i 0 = m (a + i) := by
  simp [memRead, List.getD_eq_getElem?_getD, List.getElem?_range, h]

theorem memRead_memWrite (m : Nat → Nat) (a : Nat) (d : List Nat) :
    memRead (memWrite m a d) a d.length = d := by
  unfold memRead
  conv_rhs => rw [← getD_range_map d]
  apply List.map_congr_left
  intro i hi
  rw [List.mem_range] at hi
  rw [memWrite, if_pos ⟨Nat.le_add_right a i, by omega⟩]
  congr 1
  omega

/-- C7: `swap(a, b)` returns exactly the `len(b)` bytes stored at `a` before
the write, and a second `swap(a, prev)` with the returned bytes both returns
`b` and restores the memory to its original contents. -/
theorem swap_roundtrip (m : Nat → Nat) (addr : Nat) (data : List Nat) :
    (memSwap m addr data).1 = memRead m addr data.length ∧
    (memSwap m addr data).1.length = data.length ∧
    memSwap (memSwap m addr data).2 addr (memSwap m addr data).1 = (data, m) := by
  refine ⟨rfl, by simp [memSwap, length_memRead], ?_⟩
  show (memRead (memWrite m addr data) addr (memRead m addr data.length).length,
        memWrite (memWrite m addr data) addr (memRead m addr data.length)) = (data, m)
  rw [Prod.mk.injEq]
  constructor
  · rw [length_memRead, memRead_memWrite]
  · funext x
    by_cases h : addr ≤ x ∧ x < addr + data.length
    · rw [memWrite, if_pos (by rwa [length_memRead])]
      rw [memRead_getD m addr data.length (x - addr) (by omega)]
      congr 1
      omega
    · rw [memWrite, if_neg (by rwa [length_memRead])]
      rw [memWrite, if_neg h]

/-- C1 counterexample: writes do *not* keep the cached window coherent.  With a
one-byte window `[7]` at base 0 over a one-byte memory, `memCache.Write` of
byte 9 at address 0 overlaps (indeed is contained in) the window, yet the next
read served from the cache still returns the stale byte 7; and with a two-byte
window, `Cache.Write` of two bytes at address 1 overlaps the window without
being contained in it, updates nothing, and the next cached read of address 1
also returns the stale byte. -/
theorem cache_write_stale_read_cex :
    ((MemRW.cache 0 [7] (.base fun _ => some 7)).memCacheWrite 0 [9]).read 0 1
      = some [7] ∧
    ((MemRW.cache 0 [7, 7] (.base fun _ => some 7)).cacheWrite 1 [9, 9]).read 1 1
      = some [7] ∧
    some [7] ≠ some ([9] : List Nat) := by
  refine ⟨rfl, rfl, by decide⟩

theorem bufOverwrite_length (buf : List Nat) (off : Nat) (data : List Nat)
    (h : off + data.length ≤ buf.length) :
    (bufOverwrite buf off data).length = buf.length := by
  simp [bufOverwrite]
  omega

theorem bufOverwrite_readback (buf : List Nat) (off : Nat) (data : List Nat)
    (h : off + data.length ≤ buf.length) :
    ((bufOverwrite buf off data).drop off).take data.length = data := by
  unfold bufOverwrite
  rw [List.append_assoc]
  rw [@List.drop_left' _ (buf.take off) (data ++ buf.drop (off + data.length)) off
        (by rw [List.length_take]; omega),
      @List.take_left' _ data (buf.drop (off + data.length)) data.length rfl]

/-- C1 (amended): writes always pass through to the wrapped `MemRW`.
`memCacheWrite` (proc/memory.go) never touches the cached window, so a
subsequent read served from the cache can return stale bytes; `cacheWrite`
(the pkg/memory refactoring) additionally copies the data into the window when
— and only when — the written range is fully contained in it, in which case a
subsequent cached read of that range observes the new bytes. -/
theorem cache_write_passthrough (cacheAddr : Nat) (buf : List Nat) (inner : MemRW)
    (addr : Nat) (data : List Nat) :
    (MemRW.cache cacheAddr buf inner).memCacheWrite addr data
      = .cache cacheAddr buf (inner.memCacheWrite addr data) ∧
    (cacheContains cacheAddr buf addr data.length = true →
      (MemRW.cache cacheAddr buf inner).cacheWrite addr data
        = .cache cacheAddr (bufOverwrite buf (addr - cacheAddr) data)
            (inner.cacheWrite addr data) ∧
      ((MemRW.cache cacheAddr buf inner).cacheWrite addr data).read addr data.length
        = some data) ∧
    (cacheContains cacheAddr buf addr data.length = false →
      (MemRW.cache cacheAddr buf inner).cacheWrite addr data
        = .cache cacheAddr buf (inner.cacheWrite addr data)) := by
  refine ⟨rfl, ?_, ?_⟩
  · intro hc
    have hle : cacheAddr ≤ addr ∧ addr + data.length ≤ cacheAddr + buf.length := by
      simpa [cacheContains] using hc
    have hfit : (addr - cacheAddr) + data.length ≤ buf.length := by omega
    refine ⟨by simp [MemRW.cacheWrite, hc], ?_⟩
    simp only [MemRW.cacheWrite, hc, if_true, MemRW.read]
    rw [if_pos, bufOverwrite_readback buf (addr - cacheAddr) data hfit]
    simp only [cacheContains, bufOverwrite_length buf (addr - cacheAddr) data hfit]
    simpa [cacheContains] using hc
  · intro hc
    simp [MemRW.cacheWrite, hc]

/-- Witness for `cache_write_passthrough`: a two-byte window `[7, 7]` at base
0, write of byte 9 at address 0 through `Cache.Write` — the subsequent cached
read returns the new byte. -/
theorem cache_write_passthrough_witness :
    ((MemRW.cache 0 [7, 7] (.base fun _ => some 0)).cacheWrite 0 [9]).read 0 1
      = some [9] :=
  ((cache_write_passthrough 0 [7, 7] (.base fun _ => some 0) 0 [9]).2.1 (by decide)).2

theorem cache_ne_inner (a : Nat) (d : List Nat) (m : MemRW) :
    MemRW.cache a d m ≠ m := by
  intro h
  have hdep := congrArg MemRW.depth h
  simp [MemRW.depth] at hdep

/-- C8: `newCachedMem(inner, addr, size)` returns `inner` unchanged when
`size ≤ 0`, when `inner` is already a cache whose window contains
`[addr, addr+size)`, and when the best-effort pre-read through the underlying
`MemRW` fails; only otherwise does it return a new cache (holding the
pre-read bytes) wrapping `inner`. -/
theorem newCachedMem_cases (mem : MemRW) (addr : Nat) (size : Int) :
    (size ≤ 0 → newCachedMem mem addr size = mem) ∧
    (∀ cacheAddr buf inner, mem = .cache cacheAddr buf inner →
      cacheContains cacheAddr buf addr size.toNat = true →
      newCachedMem mem addr size = mem) ∧
    (0 < size → mem.underlying.read addr size.toNat = none →
      newCachedMem mem addr size = mem) ∧
    (∀ data, 0 < size →
      (∀ cacheAddr buf inner, mem = .cache cacheAddr buf inner →
        cacheContains cacheAddr buf addr size.toNat = false) →
      mem.underlying.read addr size.toNat = some data →
      newCachedMem mem addr size = .cache addr data mem ∧
      newCachedMem mem addr size ≠ mem) := by
  refine ⟨?_, ?_, ?_, ?_⟩
  · intro h
    simp [newCachedMem, cacheEnabled, h]
  · intro cacheAddr buf inner hmem hc
    subst hmem
    by_cases hs : size ≤ 0
    · simp [newCachedMem, cacheEnabled, hs]
    · simp [newCachedMem, cacheEnabled, hs, hc]
  · intro hpos hread
    have hs : ¬ size ≤ 0 := by omega
    cases mem with
    | base m =>
        simp only [MemRW.underlying] at hread
        simp [newCachedMem, cacheEnabled, hs, hread]
    | cache cacheAddr buf inner =>
        simp only [MemRW.underlying] at hread
        by_cases hc : cacheContains cacheAddr buf addr size.toNat = true
        · simp [newCachedMem, cacheEnabled, hs, hc]
        · simp [newCachedMem, cacheEnabled, hs, hc, hread]
  · intro data hpos hnc hread
    have hs : ¬ size ≤ 0 := by omega
    cases mem with
    | base m =>
        simp only [MemRW.underlying] at hread
        exact ⟨by simp [newCachedMem, cacheEnabled, hs, hread],
               by simp [newCachedMem, cacheEnabled, hs, hread,
                        cache_ne_inner addr data (MemRW.base m)]⟩
    | cache cacheAddr buf inner =>
        simp only [MemRW.underlying] at hread
        have hc := hnc cacheAddr buf inner rfl
        exact ⟨by simp [newCachedMem, cacheEnabled, hs, hc, hread],
               by simp [newCachedMem, cacheEnabled, hs, hc, hread,
                        cache_ne_inner addr data (MemRW.cache cacheAddr buf inner)]⟩

/-- Witness for `newCachedMem_cases`: over a plain two-byte-readable memory a
positive-size construction pre-reads successfully and wraps the memory in a
new cache. -/
theorem newCachedMem_cases_witness :
    newCachedMem (MemRW.base fun _ => some 5) 0 2
      = MemRW.cache 0 [5, 5] (MemRW.base fun _ => some 5) ∧
    newCachedMem (MemRW.base fun _ => some 5) 0 2 ≠ MemRW.base fun _ => some 5 :=
  (newCachedMem_cases (MemRW.base fun _ => some 5) 0 2).2.2.2 [5, 5] (by decide)
    (fun _ _ _ h => MemRW.noConfusion h) rfl

theorem getD_concat_length {α : Type} (l : List α) (d y : α) :
    (l ++ [d]).getD l.length y = d := by
  rw [List.getD_eq_getElem?_getD, List.getElem?_concat_length]
  rfl

theorem getD_append_lt {α : Type} (l l' : List α) (n : Nat) (y : α)
    (h : n < l.length) :
    (l ++ l').getD n y = l.getD n y := by
  rw [List.getD_eq_getElem?_getD, List.getD_eq_getElem?_getD, List.getElem?_append,
      if_pos h]

theorem getD_set_ne {α : Type} (l : List α) (i j : Nat) (x y : α) (h : i ≠ j) :
    (l.set i x).getD j y = l.getD j y := by
  rw [List.getD_eq_getElem?_getD, List.getD_eq_getElem?_getD, List.getElem?_set_ne h]

/-- The bytes a read returns depend only on the cache window, its base address
and the underlying memory — not on the rest of the heap. -/
theorem cacheReadBytes_congr (s1 s2 : CacheState) (hbuf : s1.buf = s2.buf)
    (haddr : s1.cacheAddr = s2.cacheAddr) (humem : s1.umem = s2.umem)
    (addr size : Nat) :
    cacheReadBytes s1 addr size = cacheReadBytes s2 addr size := by
  unfold cacheReadBytes cacheReadAlloc
  rw [hbuf, haddr, humem]
  by_cases hc : cacheContains s2.cacheAddr s2.buf addr size = true
  · simp only [if_pos hc]
    rw [getD_concat_length, getD_concat_length]
  · simp only [if_neg hc]
    rw [getD_concat_length, getD_concat_length]

/-- C10: a read fully contained in the cached window returns a freshly
allocated copy of the window bytes; the window buffer, its base address, the
buffer's identity and the underlying memory are all left unchanged; the
returned slice does not alias the window buffer; and therefore scribbling over
the returned slice never changes the bytes of any subsequent read from the
cache. -/
theorem cache_read_fresh_copy (s : CacheState) (addr size : Nat)
    (harr : s.cacheArr < s.heap.length)
    (hc : cacheContains s.cacheAddr s.buf addr size = true) :
    ((cacheReadAlloc s addr size).1).heap.getD (cacheReadAlloc s addr size).2 []
      = (s.buf.drop (addr - s.cacheAddr)).take size ∧
    ((cacheReadAlloc s addr size).1).buf = s.buf ∧
    ((cacheReadAlloc s addr size).1).cacheArr = s.cacheArr ∧
    ((cacheReadAlloc s addr size).1).cacheAddr = s.cacheAddr ∧
    ((cacheReadAlloc s addr size).1).umem = s.umem ∧
    (cacheReadAlloc s addr size).2 ≠ s.cacheArr ∧
    (∀ junk addr2 size2,
      cacheReadBytes
          (heapStore (cacheReadAlloc s addr size).1 (cacheReadAlloc s addr size).2 junk)
          addr2 size2
        = cacheReadBytes (cacheReadAlloc s addr size).1 addr2 size2) := by
  have halloc : cacheReadAlloc s addr size
      = ({ s with heap := s.heap ++ [(s.buf.drop (addr - s.cacheAddr)).take size] },
         s.heap.length) := by
    unfold cacheReadAlloc
    rw [if_pos hc]
  rw [halloc]
  refine ⟨getD_concat_length _ _ _, ?_, rfl, rfl, rfl, by omega, ?_⟩
  · show (s.heap ++ [(s.buf.drop (addr - s.cacheAddr)).take size]).getD s.cacheArr []
      = s.buf
    rw [getD_append_lt _ _ _ _ harr]
    rfl
  · intro junk addr2 size2
    apply cacheReadBytes_congr
    · show ((s.heap ++ [(s.buf.drop (addr - s.cacheAddr)).take size]).set
              s.heap.length junk).getD s.cacheArr []
        = (s.heap ++ [(s.buf.drop (addr - s.cacheAddr)).take size]).getD s.cacheArr []
      rw [getD_set_ne _ _ _ _ _ (by omega)]
    · rfl
    · rfl

/-- Witness for `cache_read_fresh_copy`: a cache whose window `[7, 8]` sits at
base address 0 on the heap, read of one byte at address 1. -/
theorem cache_read_fresh_copy_witness :
    (cacheReadAlloc ⟨[[7, 8]], 0, 0, fun _ => 0⟩ 1 1).1.heap.getD
        (cacheReadAlloc ⟨[[7, 8]], 0, 0, fun _ => 0⟩ 1 1).2 []
      = [8] ∧
    (cacheReadAlloc ⟨[[7, 8]], 0, 0, fun _ => 0⟩ 1 1).2 ≠ 0 := by
  have h := cache_read_fresh_copy ⟨[[7, 8]], 0, 0, fun _ => 0⟩ 1 1 (by decide) (by decide)
  exact ⟨h.1, h.2.2.2.2.2.1⟩

/-- C4 (code bug): enabling hardware slot 1 at address `0x1000` with prior
`DR7 = 0x300000`.  The source writes the address to DR1, but its clearing mask
sits at bits `4·reg ..` of the low word instead of the control field at bits
`16+4·reg ..`, so the stale control bits `0x300000` survive and the computed
value is `0x300004` where the specified update yields `0x4`; and the
Linux/amd64 `setControlRegister` then pokes the breakpoint address `0x1000`
into DR7 instead of the computed `dr7` value. -/
theorem setHardwareBreakpoint_dr7_divergence :
    setHardwareBreakpoint 1 ⟨0, 0, 0, 0, 0x300000⟩ 0x1000
      = .ok ⟨0, 0x1000, 0, 0, 0x300004⟩ ∧
    setHardwareBreakpointLinux 1 ⟨0, 0, 0, 0, 0x300000⟩ 0x1000
      = .ok ⟨0, 0x1000, 0, 0, 0x1000⟩ ∧
    specDr7Update 1 0x300000 = 0x4 ∧
    (0x300004 : Nat) ≠ 0x4 ∧ (0x1000 : Nat) ≠ 0x300004 := by
  refine ⟨rfl, rfl, by decide, by decide, by decide⟩

theorem breakpointExists_resolves (sym : Nat → Option SymInfo)
    (dbp : DebuggedProcess) (addr : Nat) (hwf : WfTables sym dbp)
    (h : dbp.BreakpointExists addr = true) : (sym addr).isSome := by
  unfold DebuggedProcess.BreakpointExists at h
  simp only [Bool.or_eq_true] at h
  rcases h with ((((h | h) | h) | h) | h)
  · cases hh : dbp.hw0 with
    | none => rw [hh] at h; simp [opAddrEq] at h
    | some bp =>
        rw [hh] at h
        simp only [opAddrEq, decide_eq_true_eq] at h
        have := hwf.1 0 bp (by simp [DebuggedProcess.hwGet, hh])
        rwa [h] at this
  · cases hh : dbp.hw1 with
    | none => rw [hh] at h; simp [opAddrEq] at h
    | some bp =>
        rw [hh] at h
        simp only [opAddrEq, decide_eq_true_eq] at h
        have := hwf.1 1 bp (by simp [DebuggedProcess.hwGet, hh])
        rwa [h] at this
  · cases hh : dbp.hw2 with
    | none => rw [hh] at h; simp [opAddrEq] at h
    | some bp =>
        rw [hh] at h
        simp only [opAddrEq, decide_eq_true_eq] at h
        have := hwf.1 2 bp (by simp [DebuggedProcess.hwGet, hh])
        rwa [h] at this
  · cases hh : dbp.hw3 with
    | none => rw [hh] at h; simp [opAddrEq] at h
    | some bp =>
        rw [hh] at h
        simp only [opAddrEq, decide_eq_true_eq] at h
        have := hwf.1 3 bp (by simp [DebuggedProcess.hwGet, hh])
        rwa [h] at this
  · exact hwf.2 addr h

/-- C6: on a process whose breakpoint tables only hold resolvable addresses
(which `setBreakpoint` guarantees), setting a breakpoint at an address that
already has one (hardware or software) fails with the `BreakPointExistsError`
and leaves the state — in particular both breakpoint tables — unchanged; and
setting a breakpoint at an address the symbol oracle cannot resolve fails with
the `InvalidAddressError`, likewise leaving the state unchanged. -/
theorem setBreakpoint_error_cases (sym : Nat → Option SymInfo)
    (dbp : DebuggedProcess) (addr : Nat) (hwf : WfTables sym dbp) :
    (dbp.BreakpointExists addr = true →
      ∃ info, sym addr = some info ∧
        setBreakpoint sym dbp addr
          = (.error (.breakPointExists info.file info.line addr), dbp)) ∧
    (sym addr = none →
      setBreakpoint sym dbp addr = (.error (.invalidAddress addr), dbp)) := by
  constructor
  · intro h
    have hs := breakpointExists_resolves sym dbp addr hwf h
    obtain ⟨info, hinfo⟩ := Option.isSome_iff_exists.mp hs
    refine ⟨info, hinfo, ?_⟩
    unfold setBreakpoint
    rw [hinfo]
    simp [h]
  · intro h
    unfold setBreakpoint
    rw [h]

/-- Witness for `setBreakpoint_error_cases`: a process with one hardware
breakpoint installed at address 100, a symbol oracle resolving only 100. -/
theorem setBreakpoint_error_cases_witness :
    (setBreakpoint (fun a => if a = 100 then some ⟨"m.go", 3, "main"⟩ else none)
        ⟨some ⟨"main", "m.go", 3, 100, [], 1, false⟩, none, none, none,
         fun _ => none, 1, ⟨100, 0, 0, 0, 1⟩, fun _ => 0⟩ 100).1
      = .error (.breakPointExists "m.go" 3 100) ∧
    (setBreakpoint (fun a => if a = 100 then some ⟨"m.go", 3, "main"⟩ else none)
        ⟨some ⟨"main", "m.go", 3, 100, [], 1, false⟩, none, none, none,
         fun _ => none, 1, ⟨100, 0, 0, 0, 1⟩, fun _ => 0⟩ 200).1
      = .error (.invalidAddress 200) := by
  have hwf : WfTables (fun a => if a = 100 then some ⟨"m.go", 3, "main"⟩ else none)
      ⟨some ⟨"main", "m.go", 3, 100, [], 1, false⟩, none, none, none,
       fun _ => none, 1, ⟨100, 0, 0, 0, 1⟩, fun _ => 0⟩ := by
    constructor
    · intro i bp h
      unfold DebuggedProcess.hwGet at h
      split_ifs at h
      cases h
      rfl
    · intro a h
      simp at h
  constructor
  · obtain ⟨info, hinfo, heq⟩ :=
      (setBreakpoint_error_cases
        (fun a => if a = 100 then some ⟨"m.go", 3, "main"⟩ else none)
        ⟨some ⟨"main", "m.go", 3, 100, [], 1, false⟩, none, none, none,
         fun _ => none, 1, ⟨100, 0, 0, 0, 1⟩, fun _ => 0⟩ 100 hwf).1 rfl
    have hi : info = ⟨"m.go", 3, "main"⟩ := by
      simp at hinfo
      exact hinfo.symm
    subst hi
    rw [heq]
  · have heq :=
      (setBreakpoint_error_cases
        (fun a => if a = 100 then some ⟨"m.go", 3, "main"⟩ else none)
        ⟨some ⟨"main", "m.go", 3, 100, [], 1, false⟩, none, none, none,
         fun _ => none, 1, ⟨100, 0, 0, 0, 1⟩, fun _ => 0⟩ 200 hwf).2 (by simp)
    rw [heq]

theorem setBreakpoint_hw_eq (sym : Nat → Option SymInfo) (dbp : DebuggedProcess)
    (addr : Nat) (info : SymInfo) (reg : Nat) (regs' : DebugRegs)
    (hsym : sym addr = some info)
    (hne : dbp.BreakpointExists addr = false)
    (hslot : dbp.firstFreeHWSlot = some reg)
    (hhw : setHardwareBreakpoint reg dbp.regs addr = .ok regs') :
    setBreakpoint sym dbp addr =
      (.ok ⟨info.fnName, info.file, info.line, addr, [],
            dbp.breakpointIDCounter + 1, false⟩,
       ({ dbp with regs := regs',
                   breakpointIDCounter := dbp.breakpointIDCounter + 1 }).hwSet reg
         ⟨info.fnName, info.file, info.line, addr, [],
          dbp.breakpointIDCounter + 1, false⟩) := by
  unfold setBreakpoint
  rw [hsym]
  simp only [hne, Bool.false_eq_true, if_false]
  rw [hslot]
  dsimp only
  rw [hhw]

theorem setBreakpoint_sw_eq (sym : Nat → Option SymInfo) (dbp : DebuggedProcess)
    (addr : Nat) (info : SymInfo)
    (hsym : sym addr = some info)
    (hne : dbp.BreakpointExists addr = false)
    (hslot : dbp.firstFreeHWSlot = none) :
    setBreakpoint sym dbp addr =
      (.ok ⟨info.fnName, info.file, info.line, addr, [dbp.mem addr],
            dbp.breakpointIDCounter + 1, false⟩,
       { dbp with mem := memWrite dbp.mem addr [0xCC],
                  breakpointIDCounter := dbp.breakpointIDCounter + 1,
                  breakPoints := fun a =>
                    if a = addr then
                      some ⟨info.fnName, info.file, info.line, addr, [dbp.mem addr],
                            dbp.breakpointIDCounter + 1, false⟩
                    else dbp.breakPoints a }) := by
  unfold setBreakpoint
  rw [hsym]
  simp only [hne, Bool.false_eq_true, if_false]
  rw [hslot]

/-- C3: (a) `setBreakpoint` prefers hardware breakpoints, taking the lowest
free slot of 0..3 — whenever the slot scan yields slot `r`, slot `r` is free
and every lower slot is occupied; and (b) on a fresh process, five successful
sets at distinct non-zero addresses land in hardware slots 0, 1, 2, 3 in order
and the fifth falls back to a software breakpoint whose `OriginalData` is the
single byte previously stored at the address, after which the address holds
`0xCC`. -/
theorem setBreakpoint_hw_then_software
    (sym : Nat → Option SymInfo) (mem : Nat → Nat)
    (a1 a2 a3 a4 a5 : Nat) (i1 i2 i3 i4 i5 : SymInfo)
    (h1 : sym a1 = some i1) (h2 : sym a2 = some i2) (h3 : sym a3 = some i3)
    (h4 : sym a4 = some i4) (h5 : sym a5 = some i5)
    (hn1 : a1 ≠ 0) (hn2 : a2 ≠ 0) (hn3 : a3 ≠ 0) (hn4 : a4 ≠ 0)
    (h12 : a1 ≠ a2) (h13 : a1 ≠ a3) (h14 : a1 ≠ a4) (h15 : a1 ≠ a5)
    (h23 : a2 ≠ a3) (h24 : a2 ≠ a4) (h25 : a2 ≠ a5)
    (h34 : a3 ≠ a4) (h35 : a3 ≠ a5) (h45 : a4 ≠ a5) :
    (∀ (dbp : DebuggedProcess) (r : Nat), dbp.firstFreeHWSlot = some r →
      dbp.hwGet r = none ∧ ∀ j, j < r → dbp.hwGet j ≠ none) ∧
    (∃ d1 d2 d3 d4 d5 : DebuggedProcess,
      setBreakpoint sym (freshProcess mem) a1
        = (.ok ⟨i1.fnName, i1.file, i1.line, a1, [], 1, false⟩, d1) ∧
      setBreakpoint sym d1 a2
        = (.ok ⟨i2.fnName, i2.file, i2.line, a2, [], 2, false⟩, d2) ∧
      setBreakpoint sym d2 a3
        = (.ok ⟨i3.fnName, i3.file, i3.line, a3, [], 3, false⟩, d3) ∧
      setBreakpoint sym d3 a4
        = (.ok ⟨i4.fnName, i4.file, i4.line, a4, [], 4, false⟩, d4) ∧
      setBreakpoint sym d4 a5
        = (.ok ⟨i5.fnName, i5.file, i5.line, a5, [mem a5], 5, false⟩, d5) ∧
      d5.hw0 = some ⟨i1.fnName, i1.file, i1.line, a1, [], 1, false⟩ ∧
      d5.hw1 = some ⟨i2.fnName, i2.file, i2.line, a2, [], 2, false⟩ ∧
      d5.hw2 = some ⟨i3.fnName, i3.file, i3.line, a3, [], 3, false⟩ ∧
      d5.hw3 = some ⟨i4.fnName, i4.file, i4.line, a4, [], 4, false⟩ ∧
      d5.breakPoints a5 = some ⟨i5.fnName, i5.file, i5.line, a5, [mem a5], 5, false⟩ ∧
      d5.mem a5 = 0xCC) := by
  constructor
  · intro dbp r h
    unfold DebuggedProcess.firstFreeHWSlot at h
    split_ifs at h with hs0 hs1 hs2 hs3
    · injection h with h
      subst h
      refine ⟨by simpa [DebuggedProcess.hwGet] using Option.isNone_iff_eq_none.mp hs0, ?_⟩
      intro j hj
      omega
    · injection h with h
      subst h
      refine ⟨by simpa [DebuggedProcess.hwGet] using Option.isNone_iff_eq_none.mp hs1, ?_⟩
      intro j hj
      have hj0 : j = 0 := by omega
      subst hj0
      rw [show dbp.hwGet 0 = dbp.hw0 from by simp [DebuggedProcess.hwGet]]
      exact fun hc => hs0 (by simp [hc])
    · injection h with h
      subst h
      refine ⟨by simpa [DebuggedProcess.hwGet] using Option.isNone_iff_eq_none.mp hs2, ?_⟩
      intro j hj
      interval_cases j
      · rw [show dbp.hwGet 0 = dbp.hw0 from by simp [DebuggedProcess.hwGet]]
        exact fun hc => hs0 (by simp [hc])
      · rw [show dbp.hwGet 1 = dbp.hw1 from by simp [DebuggedProcess.hwGet]]
        exact fun hc => hs1 (by simp [hc])
    · injection h with h
      subst h
      refine ⟨by simpa [DebuggedProcess.hwGet] using Option.isNone_iff_eq_none.mp hs3, ?_⟩
      intro j hj
      interval_cases j
      · rw [show dbp.hwGet 0 = dbp.hw0 from by simp [DebuggedProcess.hwGet]]
        exact fun hc => hs0 (by simp [hc])
      · rw [show dbp.hwGet 1 = dbp.hw1 from by simp [DebuggedProcess.hwGet]]
        exact fun hc => hs1 (by simp [hc])
      · rw [show dbp.hwGet 2 = dbp.hw2 from by simp [DebuggedProcess.hwGet]]
        exact fun hc => hs2 (by simp [hc])
  · have hw1 : setHardwareBreakpoint 0 ⟨0, 0, 0, 0, 0⟩ a1 = .ok ⟨a1, 0, 0, 0, 1⟩ := by
      simp only [setHardwareBreakpoint, setDebugRegister, DR_RW_EXECUTE, DR_LEN_1,
        DR_ENABLE_SIZE, DR_CONTROL_SIZE, DR_CONTROL_SHIFT, if_neg hn1]
      norm_num [compl64]
    have hw2 : setHardwareBreakpoint 1 ⟨a1, 0, 0, 0, 1⟩ a2 = .ok ⟨a1, a2, 0, 0, 5⟩ := by
      simp only [setHardwareBreakpoint, setDebugRegister, DR_RW_EXECUTE, DR_LEN_1,
        DR_ENABLE_SIZE, DR_CONTROL_SIZE, DR_CONTROL_SHIFT, if_neg hn2]
      norm_num [compl64]
      all_goals decide
    have hw3 : setHardwareBreakpoint 2 ⟨a1, a2, 0, 0, 5⟩ a3 = .ok ⟨a1, a2, a3, 0, 21⟩ := by
      simp only [setHardwareBreakpoint, setDebugRegister, DR_RW_EXECUTE, DR_LEN_1,
        DR_ENABLE_SIZE, DR_CONTROL_SIZE, DR_CONTROL_SHIFT, if_neg hn3]
      norm_num [compl64]
      rw [if_pos (by decide : (5 : Nat) &&& 3 <<< 4 = 0)]
      simp only [Except.ok.injEq, DebugRegs.mk.injEq, and_true, true_and]
      decide
    have hw4 : setHardwareBreakpoint 3 ⟨a1, a2, a3, 0, 21⟩ a4
        = .ok ⟨a1, a2, a3, a4, 85⟩ := by
      simp only [setHardwareBreakpoint, setDebugRegister, DR_RW_EXECUTE, DR_LEN_1,
        DR_ENABLE_SIZE, DR_CONTROL_SIZE, DR_CONTROL_SHIFT, if_neg hn4]
      norm_num [compl64]
      rw [if_pos (by decide : (21 : Nat) &&& 3 <<< 6 = 0)]
      simp only [Except.ok.injEq, DebugRegs.mk.injEq, and_true, true_and]
      decide
    refine ⟨⟨some ⟨i1.fnName, i1.file, i1.line, a1, [], 1, false⟩, none, none, none,
             fun _ => none, 1, ⟨a1, 0, 0, 0, 1⟩, mem⟩,
            ⟨some ⟨i1.fnName, i1.file, i1.line, a1, [], 1, false⟩,
             some ⟨i2.fnName, i2.file, i2.line, a2, [], 2, false⟩, none, none,
             fun _ => none, 2, ⟨a1, a2, 0, 0, 5⟩, mem⟩,
            ⟨some ⟨i1.fnName, i1.file, i1.line, a1, [], 1, false⟩,
             some ⟨i2.fnName, i2.file, i2.line, a2, [], 2, false⟩,
             some ⟨i3.fnName, i3.file, i3.line, a3, [], 3, false⟩, none,
             fun _ => none, 3, ⟨a1, a2, a3, 0, 21⟩, mem⟩,
            ⟨some ⟨i1.fnName, i1.file, i1.line, a1, [], 1, false⟩,
             some ⟨i2.fnName, i2.file, i2.line, a2, [], 2, false⟩,
             some ⟨i3.fnName, i3.file, i3.line, a3, [], 3, false⟩,
             some ⟨i4.fnName, i4.file, i4.line, a4, [], 4, false⟩,
             fun _ => none, 4, ⟨a1, a2, a3, a4, 85⟩, mem⟩,
            ⟨some ⟨i1.fnName, i1.file, i1.line, a1, [], 1, false⟩,
             some ⟨i2.fnName, i2.file, i2.line, a2, [], 2, false⟩,
             some ⟨i3.fnName, i3.file, i3.line, a3, [], 3, false⟩,
             some ⟨i4.fnName, i4.file, i4.line, a4, [], 4, false⟩,
             fun a => if a = a5
               then some ⟨i5.fnName, i5.file, i5.line, a5, [mem a5], 5, false⟩
               else none,
             5, ⟨a1, a2, a3, a4, 85⟩, memWrite mem a5 [0xCC]⟩,
            ?_, ?_, ?_, ?_, ?_, rfl, rfl, rfl, rfl, by simp, ?_⟩
    · exact setBreakpoint_hw_eq sym (freshProcess mem) a1 i1 0 ⟨a1, 0, 0, 0, 1⟩
        h1 rfl rfl hw1
    · refine setBreakpoint_hw_eq sym _ a2 i2 1 ⟨a1, a2, 0, 0, 5⟩ h2 ?_ rfl hw2
      simp [DebuggedProcess.BreakpointExists, opAddrEq, h12]
    · refine setBreakpoint_hw_eq sym _ a3 i3 2 ⟨a1, a2, a3, 0, 21⟩ h3 ?_ rfl hw3
      simp [DebuggedProcess.BreakpointExists, opAddrEq, h13, h23]
    · refine setBreakpoint_hw_eq sym _ a4 i4 3 ⟨a1, a2, a3, a4, 85⟩ h4 ?_ rfl hw4
      simp [DebuggedProcess.BreakpointExists, opAddrEq, h14, h24, h34]
    · refine setBreakpoint_sw_eq sym _ a5 i5 h5 ?_ rfl
      simp [DebuggedProcess.BreakpointExists, opAddrEq, h15, h25, h35, h45]
    · simp [memWrite]

/-- Witness for `setBreakpoint_hw_then_software`: addresses 1..5 under an
oracle resolving every address, memory filled with `0x90`. -/
theorem setBreakpoint_hw_then_software_witness :
    ∃ d1 d2 d3 d4 d5 : DebuggedProcess,
      setBreakpoint (fun _ => some ⟨"f.go", 7, "main"⟩) (freshProcess fun _ => 0x90) 1
        = (.ok ⟨"main", "f.go", 7, 1, [], 1, false⟩, d1) ∧
      setBreakpoint (fun _ => some ⟨"f.go", 7, "main"⟩) d1 2
        = (.ok ⟨"main", "f.go", 7, 2, [], 2, false⟩, d2) ∧
      setBreakpoint (fun _ => some ⟨"f.go", 7, "main"⟩) d2 3
        = (.ok ⟨"main", "f.go", 7, 3, [], 3, false⟩, d3) ∧
      setBreakpoint (fun _ => some ⟨"f.go", 7, "main"⟩) d3 4
        = (.ok ⟨"main", "f.go", 7, 4, [], 4, false⟩, d4) ∧
      setBreakpoint (fun _ => some ⟨"f.go", 7, "main"⟩) d4 5
        = (.ok ⟨"main", "f.go", 7, 5, [0x90], 5, false⟩, d5) ∧
      d5.hw0 = some ⟨"main", "f.go", 7, 1, [], 1, false⟩ ∧
      d5.hw1 = some ⟨"main", "f.go", 7, 2, [], 2, false⟩ ∧
      d5.hw2 = some ⟨"main", "f.go", 7, 3, [], 3, false⟩ ∧
      d5.hw3 = some ⟨"main", "f.go", 7, 4, [], 4, false⟩ ∧
      d5.breakPoints 5 = some ⟨"main", "f.go", 7, 5, [0x90], 5, false⟩ ∧
      d5.mem 5 = 0xCC :=
  (setBreakpoint_hw_then_software (fun _ => some ⟨"f.go", 7, "main"⟩) (fun _ => 0x90)
    1 2 3 4 5 ⟨"f.go", 7, "main"⟩ ⟨"f.go", 7, "main"⟩ ⟨"f.go", 7, "main"⟩
    ⟨"f.go", 7, "main"⟩ ⟨"f.go", 7, "main"⟩ rfl rfl rfl rfl rfl
    (by decide) (by decide) (by decide) (by decide)
    (by decide) (by decide) (by decide) (by decide) (by decide) (by decide)
    (by decide) (by decide) (by decide) (by decide)).2

/-- C5 counterexample: checkpoint creation does *not* fail fast in volatile
mode.  On a session whose volatile flag is set, `createCheckpoint` with a
valid note simply proceeds: it hands out the next id and stores the
checkpoint. -/
theorem createCheckpoint_volatile_cex :
    createCheckpoint ⟨1, [], true⟩ "note1" ⟨1, 1⟩
      = .ok (1, ⟨2, [(1, ⟨1, ⟨1, 1⟩, "note1"⟩)], true⟩) := by
  rfl

/-- C5 (amended): activating volatile mode when the flag is already set panics;
activating it otherwise sets the flag and returns a deactivation callback that
clears the flag; a restart operation in volatile mode panics; checkpoint
creation performs no volatile check — with the flag set it proceeds exactly as
it would otherwise, and the flag stays set. -/
theorem volatile_mode_amended (uc : UndoSession) :
    (uc.volatile = true → activateVolatile uc
        = .panicked "tried to activate volatile mode when already active.") ∧
    (uc.volatile = false →
      ∃ cb, activateVolatile uc = .ok ({ uc with volatile := true }, cb) ∧
        ∀ u, (cb u).volatile = false) ∧
    (uc.volatile = true →
      restartPre uc = .panicked "attempted to restart in volatile mode.") ∧
    (uc.volatile = true → ∀ note t, validateCheckpointNote note = .ok () →
      createCheckpoint uc note t
        = .ok (uc.checkpointNextId,
               { uc with checkpointNextId := uc.checkpointNextId + 1,
                         checkpoints := cpMapSet uc.checkpoints uc.checkpointNextId
                           ⟨uc.checkpointNextId, t, note⟩ })) := by
  refine ⟨?_, ?_, ?_, ?_⟩
  · intro h
    unfold activateVolatile
    rw [h]
    rfl
  · intro h
    refine ⟨fun u => { u with volatile := false }, ?_, fun u => rfl⟩
    unfold activateVolatile
    rw [h]
    rfl
  · intro h
    unfold restartPre
    rw [h]
    rfl
  · intro _ note t hval
    unfold createCheckpoint
    rw [hval]

/-- Witness for `volatile_mode_amended`: a fresh session (volatile clear) and
the same session with the flag set. -/
theorem volatile_mode_amended_witness :
    activateVolatile ⟨1, [], true⟩
      = .panicked "tried to activate volatile mode when already active." ∧
    restartPre ⟨1, [], true⟩
      = .panicked "attempted to restart in volatile mode." ∧
    (∃ cb, activateVolatile ⟨1, [], false⟩ = .ok (⟨1, [], true⟩, cb) ∧
      ∀ u, (cb u).volatile = false) :=
  ⟨(volatile_mode_amended ⟨1, [], true⟩).1 rfl,
   (volatile_mode_amended ⟨1, [], true⟩).2.2.1 rfl,
   (volatile_mode_amended ⟨1, [], false⟩).2.1 rfl⟩

theorem createCheckpoint_ok_shape (uc : UndoSession) (note : String)
    (t : bookmarkTime) (p : Nat × UndoSession)
    (h : createCheckpoint uc note t = .ok p) :
    p.1 = uc.checkpointNextId ∧
    p.2.checkpointNextId = uc.checkpointNextId + 1 := by
  unfold createCheckpoint at h
  cases hv : validateCheckpointNote note with
  | ok v =>
      rw [hv] at h
      injection h with h
      subst h
      exact ⟨rfl, rfl⟩
  | err m =>
      rw [hv] at h
      exact UndoResult.noConfusion h
  | panicked m =>
      rw [hv] at h
      exact UndoResult.noConfusion h

theorem runOps_spec (ops : List SessionOp) : ∀ uc : UndoSession,
    (∀ i ∈ (runOps uc ops).2,
      uc.checkpointNextId ≤ i ∧ i < (runOps uc ops).1.checkpointNextId) ∧
    List.Pairwise (· < ·) (runOps uc ops).2 ∧
    uc.checkpointNextId ≤ (runOps uc ops).1.checkpointNextId := by
  induction ops with
  | nil =>
      intro uc
      simp [runOps]
  | cons op rest ih =>
      intro uc
      cases op with
      | delete id =>
          simpa [runOps, deleteCheckpoint] using ih (deleteCheckpoint uc id)
      | create note t =>
          cases hv : createCheckpoint uc note t with
          | ok p =>
              obtain ⟨cpid, uc'⟩ := p
              obtain ⟨hp1, hp2⟩ := createCheckpoint_ok_shape uc note t _ hv
              simp only at hp1 hp2
              rcases hrr : runOps uc' rest with ⟨ucf, ids⟩
              have hrun : runOps uc (.create note t :: rest) = (ucf, cpid :: ids) := by
                simp [runOps, hv, hrr]
              have ihh := ih uc'
              rw [hrr] at ihh
              rw [hrun]
              simp only at ihh ⊢
              refine ⟨?_, ?_, ?_⟩
              · intro i hi
                rcases List.mem_cons.mp hi with rfl | hi
                · have := ihh.2.2
                  omega
                · have := ihh.1 i hi
                  omega
              · refine List.Pairwise.cons (fun i hi => ?_) ihh.2.1
                have := ihh.1 i hi
                omega
              · have := ihh.2.2
                omega
          | err m =>
              have hrun : runOps uc (.create note t :: rest) = runOps uc rest := by
                simp [runOps, hv]
              rw [hrun]
              exact ih uc
          | panicked m =>
              have hrun : runOps uc (.create note t :: rest) = runOps uc rest := by
                simp [runOps, hv]
              rw [hrun]
              exact ih uc

/-- C9: along any trace of checkpoint creations and deletions starting from a
fresh session, the ids handed out by the successful creations are strictly
increasing, and every id ever assigned is strictly below the final session's
next-id counter — deletion never decrements the counter, so an id is never
reused. -/
theorem checkpoint_ids_monotonic (ops : List SessionOp) :
    List.Pairwise (· < ·) (runOps newUndoSession ops).2 ∧
    ∀ i ∈ (runOps newUndoSession ops).2,
      i < (runOps newUndoSession ops).1.checkpointNextId :=
  ⟨(runOps_spec ops newUndoSession).2.1,
   fun i hi => ((runOps_spec ops newUndoSession).1 i hi).2⟩

/-- C2 (code bug): the save-side presence test `s.Bookmarks[name] !=
(bookmarkTime{})` mistakes a stored bookmark whose time is the zero value
`(0, 0)` for an absent key.  Two checkpoints share the valid note `"a"` (equal
note lengths, so this emission order is a legitimate result of the descending
note-length sort); the one stored first has time `(0, 0)`.  Saving emits the
second under the *same* key `"a"`, overwriting the first, so the save/load
round trip returns a single `{when, note}` pair where the claim requires both
(with the duplicate suffixed `"a-0"`).  With any non-zero stored time the loop
suffixes correctly, as the last conjunct shows. -/
theorem session_save_zero_time_collision :
    validateCheckpointNote "a" = .ok () ∧
    (⟨1, ⟨0, 0⟩, "a"⟩ : Checkpoint).Where.length
      = (⟨2, ⟨1, 1⟩, "a"⟩ : Checkpoint).Where.length ∧
    saveBookmarks [⟨1, ⟨0, 0⟩, "a"⟩, ⟨2, ⟨1, 1⟩, "a"⟩] = [("a", ⟨1, 1⟩)] ∧
    sessionNotes (loadCheckpoints (saveBookmarks [⟨1, ⟨0, 0⟩, "a"⟩, ⟨2, ⟨1, 1⟩, "a"⟩]))
      = [("a", ⟨1, 1⟩)] ∧
    saveBookmarks [⟨2, ⟨1, 1⟩, "a"⟩, ⟨1, ⟨2, 2⟩, "a"⟩]
      = [("a", ⟨1, 1⟩), ("a-0", ⟨2, 2⟩)] := by
  refine ⟨rfl, rfl, rfl, rfl, rfl⟩

/-- Witness for `checkpoint_ids_monotonic`: create, delete, create — the
second creation receives id 2 (not the freed id 1) and both assigned ids stay
below the final counter 3. -/
theorem checkpoint_ids_monotonic_witness :
    (runOps newUndoSession
      [.create "note1" ⟨1, 1⟩, .delete 1, .create "note2" ⟨2, 2⟩]).2 = [1, 2] ∧
    1 < (runOps newUndoSession
      [.create "note1" ⟨1, 1⟩, .delete 1, .create "note2" ⟨2, 2⟩]).1.checkpointNextId :=
  ⟨rfl,
   (checkpoint_ids_monotonic
      [.create "note1" ⟨1, 1⟩, .delete 1, .create "note2" ⟨2, 2⟩]).2 1
     (by rw [show (runOps newUndoSession
          [.create "note1" ⟨1, 1⟩, .delete 1, .create "note2" ⟨2, 2⟩]).2 = [1, 2]
        from rfl]; simp)⟩
